import Mathlib

/-!
Verification of the MovieLens recommender backend's recommendation scoring
and model-training engine, as a shallow embedding of the Python services
in `app/services/recommendation_service.py`, `app/services/model_service.py`
and `app/services/interaction_service.py`.

Numeric vectors (numpy float arrays in the source) are modelled as `List ℝ`;
ratings and progress percentages (Python floats with small decimal values)
are modelled as `ℚ`; MongoDB collections are modelled as Lean lists in
natural (insertion) order; `find_one`/`update_one` act on the first match
and `update_many` on all matches, mirroring MongoDB semantics.  Fallible
I/O is modelled explicitly: operations that the Python code lets raise are
embedded with `Except`, while operations whose errors the Python code
catches are embedded as total functions, with a `Bool` flag selecting
whether the underlying store call succeeds or raises.
-/

namespace MovieLens

/-! ### Vector math: `RecommendationService._calculate_cosine_similarity`

The source treats vectors as 1-d numpy arrays; `np.dot` and
`np.linalg.norm` on those are the dot product and the Euclidean norm.
-/

/-- `np.dot` on two 1-d vectors (pointwise products, summed). -/
def dotList (a b : List ℝ) : ℝ := (List.zipWith (fun x y => x * y) a b).sum

/-- `np.linalg.norm` on a 1-d vector: the Euclidean norm. -/
noncomputable def normList (a : List ℝ) : ℝ := Real.sqrt (dotList a a)

/-- Embedding of `_calculate_cosine_similarity`: returns `0.0` on a shape
mismatch, returns `0.0` when either vector has zero norm, and otherwise
returns the cosine `dot/(norm*norm)` clamped into `[0, 1]` by
`max(0.0, min(1.0, similarity))`. -/
noncomputable def cosineSim (v1 v2 : List ℝ) : ℝ :=
  if v1.length ≠ v2.length then 0
  else if normList v1 = 0 ∨ normList v2 = 0 then 0
  else max 0 (min 1 (dotList v1 v2 / (normList v1 * normList v2)))

/-! ### Similarity ranking

Both `get_content_recommendations_for_user` (steps 6-7) and
`get_similar_items` (steps 4-5) score every candidate of the candidate
map against a reference vector with `_calculate_cosine_similarity`,
sort the `(movie_id, similarity)` pairs with
`sort(key=lambda x: x[1], reverse=True)` — a *stable* descending sort —
and keep the first `top_n` ids.  The candidate dict's iteration order is
its insertion order, so candidates are modelled as an association list.
`List.insertionSort` with the "score is at least" relation is a stable
descending sort, hence produces exactly the list Python's stable sort
produces.
-/

/-- The comparison used for ranking: `a` may come before `b` iff the score
of `a` is at least the score of `b` (descending by similarity). -/
def scoreGE (a b : String × ℝ) : Prop := b.2 ≤ a.2

noncomputable instance : DecidableRel scoreGE :=
  fun a b => inferInstanceAs (Decidable (b.2 ≤ a.2))

instance : IsTotal (String × ℝ) scoreGE := ⟨fun a b => le_total b.2 a.2⟩

instance : IsTrans (String × ℝ) scoreGE := ⟨fun _ _ _ h1 h2 => le_trans h2 h1⟩

/-- The scoring loop: each candidate id paired with its cosine similarity
to the reference vector, in candidate-map iteration order. -/
noncomputable def scoredCandidates (ref : List ℝ) (cands : List (String × List ℝ)) :
    List (String × ℝ) :=
  cands.map (fun p => (p.1, cosineSim ref p.2))

/-- `recommendations_scored.sort(key=lambda x: x[1], reverse=True)`:
the scored candidates, stably sorted by non-increasing score. -/
noncomputable def rankScored (ref : List ℝ) (cands : List (String × List ℝ)) :
    List (String × ℝ) :=
  (scoredCandidates ref cands).insertionSort scoreGE

/-- Steps 7 / 5 of the two flows: truncate the sorted scored list to
`top_n` entries and keep only the movie ids. -/
noncomputable def rankCandidates (ref : List ℝ) (cands : List (String × List ℝ))
    (topN : Nat) : List String :=
  ((rankScored ref cands).take topN).map Prod.fst

/-! Stability of `List.insertionSort`: restricted to any one equivalence
class of the comparison (here: one fixed score), sorting is the identity.
These two lemmas are stated generically. -/

theorem filter_orderedInsert_pos {α : Type} (r : α → α → Prop) [DecidableRel r]
    (p : α → Bool) (a : α) (ha : p a = true) (h : ∀ b, p b = true → r a b) :
    ∀ l : List α, (l.orderedInsert r a).filter p = a :: l.filter p := by
  intro l
  induction l with
  | nil => simp [List.orderedInsert, ha]
  | cons b l ih =>
    by_cases hrab : r a b
    · simp [List.orderedInsert, hrab, List.filter, ha]
    · have hpb : p b = false := by
        cases hb : p b with
        | false => rfl
        | true => exact absurd (h b hb) hrab
      simp [List.orderedInsert, hrab, List.filter, hpb, ih]

theorem filter_orderedInsert_neg {α : Type} (r : α → α → Prop) [DecidableRel r]
    (p : α → Bool) (a : α) (ha : p a = false) :
    ∀ l : List α, (l.orderedInsert r a).filter p = l.filter p := by
  intro l
  induction l with
  | nil => simp [List.orderedInsert, ha]
  | cons b l ih =>
    by_cases hrab : r a b
    · simp [List.orderedInsert, hrab, List.filter, ha]
    · cases hb : p b with
      | false => simp [List.orderedInsert, hrab, List.filter, hb, ih]
      | true => simp [List.orderedInsert, hrab, List.filter, hb, ih]

theorem filter_insertionSort {α : Type} (r : α → α → Prop) [DecidableRel r]
    (p : α → Bool) (hP : ∀ a b, p a = true → p b = true → r a b) :
    ∀ l : List α, (l.insertionSort r).filter p = l.filter p := by
  intro l
  induction l with
  | nil => rfl
  | cons a l ih =>
    cases ha : p a with
    | true =>
      rw [List.insertionSort, filter_orderedInsert_pos r p a ha (fun b hb => hP a b ha hb),
        ih, List.filter, ha]
    | false =>
      rw [List.insertionSort, filter_orderedInsert_neg r p a ha, ih, List.filter, ha]

theorem cosineSim_comm (v1 v2 : List ℝ) : cosineSim v1 v2 = cosineSim v2 v1 := by
  have hdot : dotList v1 v2 = dotList v2 v1 := by
    unfold dotList
    rw [List.zipWith_comm_of_comm (fun x y => x * y) (fun x y => mul_comm x y)]
  by_cases h : v1.length = v2.length
  · rw [cosineSim, cosineSim,
      if_neg (show ¬v1.length ≠ v2.length from not_not_intro h),
      if_neg (show ¬v2.length ≠ v1.length from not_not_intro h.symm)]
    by_cases hn : normList v1 = 0 ∨ normList v2 = 0
    · rw [if_pos hn, if_pos hn.symm]
    · rw [if_neg hn, if_neg (fun hc => hn hc.symm), hdot,
        mul_comm (normList v2) (normList v1)]
  · have h2 : v2.length ≠ v1.length := fun e => h e.symm
    rw [cosineSim, cosineSim, if_pos h, if_pos h2]

/-- C7: `_calculate_cosine_similarity` returns `0.0` on shape mismatch or a
zero-norm input, otherwise the cosine clamped to `[0, 1]`; it is symmetric
and its result always lies in `[0, 1]`. -/
theorem cosine_similarity_spec (v1 v2 : List ℝ) :
    cosineSim v1 v2 = cosineSim v2 v1 ∧
    0 ≤ cosineSim v1 v2 ∧ cosineSim v1 v2 ≤ 1 ∧
    (v1.length ≠ v2.length → cosineSim v1 v2 = 0) ∧
    ((normList v1 = 0 ∨ normList v2 = 0) → cosineSim v1 v2 = 0) ∧
    (v1.length = v2.length → normList v1 ≠ 0 → normList v2 ≠ 0 →
      cosineSim v1 v2 = max 0 (min 1 (dotList v1 v2 / (normList v1 * normList v2)))) := by
  refine ⟨cosineSim_comm v1 v2, ?_, ?_, ?_, ?_, ?_⟩
  · unfold cosineSim
    split_ifs <;> first | exact le_refl 0 | exact le_max_left 0 _
  · unfold cosineSim
    split_ifs <;> first
      | exact zero_le_one
      | exact max_le zero_le_one (min_le_left 1 _)
  · intro h
    rw [cosineSim, if_pos h]
  · intro hn
    unfold cosineSim
    split_ifs with hl
    · rfl
    · rfl
  · intro hlen hn1 hn2
    rw [cosineSim, if_neg (by simp [hlen]),
      if_neg (by rintro (h | h) <;> [exact hn1 h; exact hn2 h])]

/-- Witness for C7 at concrete inputs: a shape mismatch, a zero-norm pair,
and a clamped-cosine pair, with each hypothesis discharged concretely. -/
theorem cosine_similarity_spec_witness :
    (([(1 : ℝ), 0]).length ≠ ([(1 : ℝ)]).length ∧ cosineSim [(1 : ℝ), 0] [(1 : ℝ)] = 0) ∧
    (normList [(0 : ℝ)] = 0 ∧ cosineSim [(0 : ℝ)] [(1 : ℝ)] = 0) ∧
    (normList [(2 : ℝ)] ≠ 0 ∧ normList [(1 : ℝ)] ≠ 0 ∧
      cosineSim [(2 : ℝ)] [(1 : ℝ)] =
        max 0 (min 1 (dotList [(2 : ℝ)] [(1 : ℝ)] / (normList [(2 : ℝ)] * normList [(1 : ℝ)])))) := by
  have hlen : ([(1 : ℝ), 0]).length ≠ ([(1 : ℝ)]).length := by decide
  have hz : normList [(0 : ℝ)] = 0 := by
    have : dotList [(0 : ℝ)] [(0 : ℝ)] = 0 := by simp [dotList]
    rw [normList, this, Real.sqrt_zero]
  have h2 : normList [(2 : ℝ)] ≠ 0 := by
    have : dotList [(2 : ℝ)] [(2 : ℝ)] = 4 := by simp [dotList]; norm_num
    rw [normList, this]
    exact ne_of_gt (Real.sqrt_pos.mpr (by norm_num))
  have h1 : normList [(1 : ℝ)] ≠ 0 := by
    have : dotList [(1 : ℝ)] [(1 : ℝ)] = 1 := by simp [dotList]
    rw [normList, this, Real.sqrt_one]
    exact one_ne_zero
  exact ⟨⟨hlen, (cosine_similarity_spec [(1 : ℝ), 0] [(1 : ℝ)]).2.2.2.1 hlen⟩,
    ⟨hz, (cosine_similarity_spec [(0 : ℝ)] [(1 : ℝ)]).2.2.2.2.1 (Or.inl hz)⟩,
    ⟨h2, h1, (cosine_similarity_spec [(2 : ℝ)] [(1 : ℝ)]).2.2.2.2.2 rfl h2 h1⟩⟩

/-- C6: the ranking step returns at most `top_n` ids, every returned id is
a key of the candidate map, scores are non-increasing along the output,
and the sort is stable: within any one score class the sorted order is the
candidate iteration order. -/
theorem rank_spec (ref : List ℝ) (cands : List (String × List ℝ)) (topN : Nat) :
    (rankCandidates ref cands topN).length ≤ topN ∧
    rankCandidates ref cands topN ⊆ cands.map Prod.fst ∧
    ((rankScored ref cands).take topN).Pairwise scoreGE ∧
    ∀ s : ℝ, (rankScored ref cands).filter (fun x => decide (x.2 = s)) =
      (scoredCandidates ref cands).filter (fun x => decide (x.2 = s)) := by
  refine ⟨?_, ?_, ?_, ?_⟩
  · rw [rankCandidates, List.length_map, List.length_take]
    exact min_le_left _ _
  · intro x hx
    obtain ⟨p, hp, rfl⟩ := List.mem_map.mp hx
    have hp2 : p ∈ rankScored ref cands := List.mem_of_mem_take hp
    have hp3 : p ∈ scoredCandidates ref cands :=
      (List.mem_insertionSort scoreGE).mp hp2
    obtain ⟨q, hq, rfl⟩ := List.mem_map.mp hp3
    exact List.mem_map.mpr ⟨q, hq, rfl⟩
  · exact List.Pairwise.sublist (List.take_sublist _ _)
      (List.sorted_insertionSort scoreGE (scoredCandidates ref cands))
  · intro s
    exact filter_insertionSort scoreGE (fun x => decide (x.2 = s))
      (fun a b ha hb =>
        le_of_eq ((of_decide_eq_true hb).trans (of_decide_eq_true ha).symm))
      (scoredCandidates ref cands)

/-! ### Interactions and `_get_user_positive_interactions`

An interaction document has `userId`, `movieId`, `type`, `value` and
`timestamp` fields.  The helper queries
`{userId, type: "rate", value: {$gte: 4.0}}`, sorts by `timestamp`
descending, limits to 50, projects `movieId`, and then deduplicates with
`list(set(liked_movie_ids))`.  CPython iterates a `set` of strings in an
order determined by (randomized) hashes, so `list(set(...))` returns the
distinct ids in an *unspecified* order; the embedding therefore takes the
set-iteration order as an oracle `σ`, constrained only to produce some
permutation of the distinct ids.
-/

structure Interaction where
  userId : String
  movieId : String
  type : String
  value : ℚ
  timestamp : Int
deriving DecidableEq

/-- Comparison for MongoDB's `sort("timestamp", -1)`: `a` may come before
`b` iff `a`'s timestamp is at least `b`'s. -/
def tsGE (a b : Interaction) : Prop := b.timestamp ≤ a.timestamp

instance : DecidableRel tsGE :=
  fun a b => inferInstanceAs (Decidable (b.timestamp ≤ a.timestamp))

instance : IsTotal Interaction tsGE := ⟨fun a b => le_total b.timestamp a.timestamp⟩

instance : IsTrans Interaction tsGE := ⟨fun _ _ _ h1 h2 => le_trans h2 h1⟩

def MIN_RATING_FOR_POSITIVE_INTERACTION : ℚ := 4

/-- The query/sort/limit/projection part of
`_get_user_positive_interactions`, before deduplication: the movie ids of
the user's `rate` interactions with `value ≥ 4.0`, ordered by timestamp
descending, truncated to the 50 most recent. -/
def positivePrefix (ints : List Interaction) (uid : String) : List String :=
  ((((ints.filter (fun i => decide (i.userId = uid ∧ i.type = "rate" ∧
      MIN_RATING_FOR_POSITIVE_INTERACTION ≤ i.value))).insertionSort tsGE).take 50).map
    (fun i => i.movieId))

/-- A function is a valid model of CPython's `list(set(...))` iff it
returns the distinct elements of its input, each exactly once, in some
order. -/
def IsSetOrder (σ : List String → List String) : Prop :=
  ∀ l : List String, List.Perm (σ l) l.dedup

/-- Embedding of `_get_user_positive_interactions` (success path), with the
set-iteration order `σ` passed explicitly. -/
def positiveInteractionIds (σ : List String → List String)
    (ints : List Interaction) (uid : String) : List String :=
  σ (positivePrefix ints uid)

/-- The sequence the spec describes: the deduplicated positive-interaction
ids in most-recent-first order (dedup keeps the first — most recent —
occurrence of each id). -/
def canonicalPositiveIds (ints : List Interaction) (uid : String) : List String :=
  (positivePrefix ints uid).dedup

/-- A concrete valid set-iteration order: distinct ids, reversed. -/
def c1Sigma : List String → List String := fun l => l.dedup.reverse

/-- Two positive ratings by user `u1`: movie `a` at time 2, movie `b` at
time 1.  Most-recent-first order would be `["a", "b"]`. -/
def c1Ints : List Interaction :=
  [⟨"u1", "a", "rate", 5, 2⟩, ⟨"u1", "b", "rate", 5, 1⟩]

/-- C1 counterexample: under a legitimate set-iteration order the lookup
returns `["b", "a"]`, not the most-recent-first sequence `["a", "b"]`:
`list(set(...))` does not preserve the timestamp-descending order. -/
theorem positive_interactions_counterexample :
    IsSetOrder c1Sigma ∧
    canonicalPositiveIds c1Ints "u1" = ["a", "b"] ∧
    positiveInteractionIds c1Sigma c1Ints "u1" = ["b", "a"] ∧
    positiveInteractionIds c1Sigma c1Ints "u1" ≠ canonicalPositiveIds c1Ints "u1" := by
  refine ⟨fun l => List.reverse_perm _, ?_, ?_, ?_⟩ <;> decide

/-- C1 (amended): for every valid set-iteration order, the lookup returns
the distinct ids of the user's (at most 50) most recent positive-rating
interactions — deduplicated, bounded by 50, drawn from the
timestamp-descending prefix — but in unspecified order (a permutation of
the most-recent-first sequence). -/
theorem positive_interactions_amended (σ : List String → List String)
    (hσ : IsSetOrder σ) (ints : List Interaction) (uid : String) :
    (positiveInteractionIds σ ints uid).Nodup ∧
    (positiveInteractionIds σ ints uid).length ≤ 50 ∧
    List.Perm (positiveInteractionIds σ ints uid) (canonicalPositiveIds ints uid) := by
  have hperm := hσ (positivePrefix ints uid)
  have h50 : (positivePrefix ints uid).length ≤ 50 := by
    rw [positivePrefix, List.length_map, List.length_take]
    exact min_le_left _ _
  refine ⟨hperm.nodup_iff.mpr (List.nodup_dedup _), ?_, hperm⟩
  calc (positiveInteractionIds σ ints uid).length
      = (positivePrefix ints uid).dedup.length := hperm.length_eq
    _ ≤ (positivePrefix ints uid).length := (List.dedup_sublist _).length_le
    _ ≤ 50 := h50

/-- Witness for C1's amended theorem: `List.dedup` is itself a valid
set-iteration order, and on the concrete history the conclusions hold. -/
theorem positive_interactions_amended_witness :
    IsSetOrder (fun l => l.dedup) ∧
    (positiveInteractionIds (fun l => l.dedup) c1Ints "u1").Nodup ∧
    (positiveInteractionIds (fun l => l.dedup) c1Ints "u1").length ≤ 50 ∧
    List.Perm (positiveInteractionIds (fun l => l.dedup) c1Ints "u1")
      (canonicalPositiveIds c1Ints "u1") := by
  have hσ : IsSetOrder (fun l => l.dedup) := fun l => List.Perm.refl _
  have h := positive_interactions_amended (fun l => l.dedup) hσ c1Ints "u1"
  exact ⟨hσ, h.1, h.2.1, h.2.2⟩

/-! ### Movie embeddings and the user-recommendation flow

`_get_movie_embeddings` maps each requested id to its parsed embedding, or
`None` when the movie document is missing, the `embedding` field is
missing, empty or not a list, or the list cannot be converted to a numpy
array; on a database error it maps *every* requested id to `None`.
`_get_candidate_movie_embeddings` returns a sampled map of candidate
embeddings and `{}` on a database error; the random `$sample` result is
passed in as `sample`.  A `Bool` flag per repository call selects whether
the underlying call succeeds or raises `PyMongoError`.
-/

/-- The raw `embedding` field of a movie document: missing, present but
unusable (not a list / not convertible), or a float list. -/
inductive RawEmb where
  | absent
  | malformed
  | vec (v : List ℝ)

/-- Per-document parsing in `_get_movie_embeddings`: only a present,
non-empty, convertible list yields an embedding. -/
def parseEmb : RawEmb → Option (List ℝ)
  | RawEmb.absent => none
  | RawEmb.malformed => none
  | RawEmb.vec v => if v.isEmpty then none else some v

/-- Lookup of one movie's embedding (the movies collection is an
association list from id to raw embedding field). -/
def getMovieEmbedding (movies : List (String × RawEmb)) (mid : String) :
    Option (List ℝ) :=
  match movies.find? (fun p => p.1 == mid) with
  | none => none
  | some p => parseEmb p.2

/-- Embedding of `_get_movie_embeddings`: each requested id mapped to its
parsed embedding, or all ids mapped to `None` on a `PyMongoError`. -/
def getMovieEmbeddings (repoOk : Bool) (movies : List (String × RawEmb))
    (ids : List String) : List (String × Option (List ℝ)) :=
  if repoOk then ids.map (fun mid => (mid, getMovieEmbedding movies mid))
  else ids.map (fun mid => (mid, none))

/-- Embedding of `_get_candidate_movie_embeddings`: the `$sample` result on
success, the empty map on a `PyMongoError`. -/
def getCandidateMovieEmbeddings (repoOk : Bool)
    (sample : List (String × List ℝ)) : List (String × List ℝ) :=
  if repoOk then sample else []

/-- Embedding of `_get_user_positive_interactions` including its error
path: the empty list on a `PyMongoError`. -/
def getUserPositiveInteractions (σ : List String → List String) (repoOk : Bool)
    (ints : List Interaction) (uid : String) : List String :=
  if repoOk then positiveInteractionIds σ ints uid else []

/-- `np.mean(np.array(vectors), axis=0)`: the elementwise mean. -/
noncomputable def meanVec (vs : List (List ℝ)) : List ℝ :=
  match vs with
  | [] => []
  | v :: _ =>
    (vs.foldl (fun acc w => List.zipWith (fun x y => x + y) acc w)
      (List.replicate v.length 0)).map (fun x => x / (vs.length : ℝ))

/-- Embedding of `get_content_recommendations_for_user`.  A valid cache hit
is returned as-is; cache read errors, malformed cache payloads and misses
all fall through to recomputation (`cacheOutcome = none`).  Empty liked
ids, empty usable liked embeddings and an empty candidate map each return
the empty list; otherwise the candidates are ranked against the mean
profile vector.  The function is total: the flow never raises.  (The
write-through cache store at the end does not affect the returned value
and is not modelled.) -/
noncomputable def getContentRecommendationsForUser
    (σ : List String → List String) (cacheOutcome : Option (List String))
    (intsOk embOk candOk : Bool) (ints : List Interaction)
    (movies : List (String × RawEmb)) (sample : List (String × List ℝ))
    (uid : String) (topN : Nat) : Except String (List String) :=
  match cacheOutcome with
  | some ids => Except.ok ids
  | none =>
    if (getUserPositiveInteractions σ intsOk ints uid).isEmpty then Except.ok []
    else if ((getMovieEmbeddings embOk movies
        (getUserPositiveInteractions σ intsOk ints uid)).filterMap
          (fun p => p.2)).isEmpty then Except.ok []
    else if (getCandidateMovieEmbeddings candOk sample).isEmpty then Except.ok []
    else Except.ok (rankCandidates
      (meanVec ((getMovieEmbeddings embOk movies
        (getUserPositiveInteractions σ intsOk ints uid)).filterMap (fun p => p.2)))
      (getCandidateMovieEmbeddings candOk sample) topN)

/-- C3 counterexample: with positive-rating history present but the
interaction-repository read failing, the request still completes, with the
substitute result `[]` — the repository failure does not propagate. -/
theorem repo_failure_counterexample :
    getContentRecommendationsForUser (fun l => l.dedup) none false true true c1Ints
      [("a", RawEmb.vec [1]), ("b", RawEmb.vec [0])] [("c", [1])] "u1" 10 =
      Except.ok [] := rfl

/-- C3 (amended): in the user-recommendation path repository read failures
do not propagate — the flow always completes with an `ok` result, and a
failing interactions, embeddings or candidates read degrades the result to
the empty list. -/
theorem repo_failure_degrades (σ : List String → List String)
    (cacheO : Option (List String)) (intsOk embOk candOk : Bool)
    (ints : List Interaction) (movies : List (String × RawEmb))
    (sample : List (String × List ℝ)) (uid : String) (topN : Nat) :
    (∃ l, getContentRecommendationsForUser σ cacheO intsOk embOk candOk ints
        movies sample uid topN = Except.ok l) ∧
    (cacheO = none → intsOk = false →
      getContentRecommendationsForUser σ cacheO intsOk embOk candOk ints
        movies sample uid topN = Except.ok []) ∧
    (cacheO = none → embOk = false →
      getContentRecommendationsForUser σ cacheO intsOk embOk candOk ints
        movies sample uid topN = Except.ok []) ∧
    (cacheO = none → candOk = false →
      getContentRecommendationsForUser σ cacheO intsOk embOk candOk ints
        movies sample uid topN = Except.ok []) := by
  have hmapnone : ∀ l : List String,
      (l.map (fun mid => (mid, (none : Option (List ℝ))))).filterMap (fun p => p.2) = [] := by
    intro l
    induction l with
    | nil => rfl
    | cons a l ih => simp [List.filterMap, ih]
  refine ⟨?_, ?_, ?_, ?_⟩
  · cases cacheO with
    | some ids => exact ⟨ids, rfl⟩
    | none =>
      simp only [getContentRecommendationsForUser]
      split_ifs <;> exact ⟨_, rfl⟩
  · intro hc hio
    subst hc; subst hio
    rfl
  · intro hc he
    subst hc; subst he
    simp only [getContentRecommendationsForUser, getMovieEmbeddings, Bool.false_eq_true,
      if_false, hmapnone, List.isEmpty_nil]
    split_ifs <;> rfl
  · intro hc hca
    subst hc; subst hca
    simp only [getContentRecommendationsForUser, getCandidateMovieEmbeddings,
      Bool.false_eq_true, if_false, List.isEmpty_nil]
    split_ifs <;> rfl

/-- Witness for C3's amended theorem at a concrete failing repository. -/
theorem repo_failure_degrades_witness :
    getContentRecommendationsForUser (fun l => l.dedup) none false true true c1Ints
      [] [] "u1" 10 = Except.ok [] :=
  (repo_failure_degrades (fun l => l.dedup) none false true true c1Ints
    [] [] "u1" 10).2.1 rfl rfl

/-! ### `get_similar_items` (item-to-item flow) -/

/-- Embedding of `get_similar_items`.  A valid cache hit is returned
as-is; cache errors, malformed payloads and misses fall through
(`cacheOutcome = none`).  A missing target embedding raises
`RecommendationServiceError` (modelled as `Except.error` with the
source's message); an empty candidate map returns `[]`; otherwise the
candidates are ranked against the target embedding. -/
noncomputable def getSimilarItems (cacheOutcome : Option (List String))
    (movies : List (String × RawEmb)) (candOk : Bool)
    (sample : List (String × List ℝ)) (movieId : String) (topN : Nat) :
    Except String (List String) :=
  match cacheOutcome with
  | some ids => Except.ok ids
  | none =>
    match getMovieEmbedding movies movieId with
    | none => Except.error ("Movie or embedding not found for ID: " ++ movieId)
    | some target =>
      if (getCandidateMovieEmbeddings candOk sample).isEmpty then Except.ok []
      else Except.ok (rankCandidates target
        (getCandidateMovieEmbeddings candOk sample) topN)

/-- C5: on a cache miss, a movie whose stored embedding is absent, empty or
unparseable makes `get_similar_items` raise `RecommendationServiceError`
with the not-found message — and this is the only error the item-to-item
flow ever surfaces: any returned error is that message, under exactly
those conditions. -/
theorem get_similar_items_spec (cacheO : Option (List String))
    (movies : List (String × RawEmb)) (candOk : Bool)
    (sample : List (String × List ℝ)) (mid : String) (topN : Nat) :
    ((cacheO = none ∧ getMovieEmbedding movies mid = none) →
      getSimilarItems cacheO movies candOk sample mid topN =
        Except.error ("Movie or embedding not found for ID: " ++ mid)) ∧
    (∀ e, getSimilarItems cacheO movies candOk sample mid topN = Except.error e →
      e = "Movie or embedding not found for ID: " ++ mid ∧
      cacheO = none ∧ getMovieEmbedding movies mid = none) := by
  constructor
  · rintro ⟨hc, hemb⟩
    subst hc
    simp [getSimilarItems, hemb]
  · intro e he
    cases cacheO with
    | some ids => simp [getSimilarItems] at he
    | none =>
      cases hemb : getMovieEmbedding movies mid with
      | none =>
        simp [getSimilarItems, hemb] at he
        exact ⟨he.symm, rfl, rfl⟩
      | some target =>
        rw [getSimilarItems] at he
        simp only [hemb] at he
        split_ifs at he

/-- Witness for C5: a movie present in the collection with an absent
embedding field, on a cache miss, yields the not-found error. -/
theorem get_similar_items_spec_witness :
    getMovieEmbedding [("m1", RawEmb.absent)] "m1" = none ∧
    getSimilarItems none [("m1", RawEmb.absent)] true [] "m1" 10 =
      Except.error ("Movie or embedding not found for ID: " ++ "m1") :=
  ⟨rfl, (get_similar_items_spec none [("m1", RawEmb.absent)] true [] "m1" 10).1
    ⟨rfl, rfl⟩⟩

/-! ### Model registry: `activate_model` (`model_service.py`)

A model record carries a `model_id`, a `type` and an `active` flag (the
remaining metadata fields play no role in any claim).  The `models`
collection is a list in insertion order; `find_one` returns the first
match, `update_one` updates the first match, `update_many` updates all
matches.
-/

structure ModelRecord where
  modelId : String
  type : String
  active : Bool
deriving DecidableEq

/-- `get_model`: `find_one({"model_id": model_id})`. -/
def getModel (models : List ModelRecord) (mid : String) : Option ModelRecord :=
  models.find? (fun x => x.modelId == mid)

/-- `get_active_model(type)`: `find_one({"active": True, "type": type})`. -/
def getActiveModel (models : List ModelRecord) (t : String) : Option ModelRecord :=
  models.find? (fun x => x.active && x.type == t)

/-- `update_many({"type": t, "active": True}, {"$set": {"active": False}})`. -/
def deactivateType (models : List ModelRecord) (t : String) : List ModelRecord :=
  models.map (fun m => if m.type = t ∧ m.active = true then { m with active := false } else m)

/-- `update_one({"model_id": mid}, {"$set": {"active": True, ...}})`:
activates the first record with the given id. -/
def setActiveFirst (models : List ModelRecord) (mid : String) : List ModelRecord :=
  match models with
  | [] => []
  | m :: rest =>
    if m.modelId = mid then { m with active := true } :: rest
    else m :: setActiveFirst rest mid

/-- Embedding of `activate_model`: look the model up; if missing return
`None` leaving the store unchanged; otherwise deactivate every active
record of the model's type, then activate the first record with the id,
and return the re-read record together with the new store. -/
def activateModel (models : List ModelRecord) (mid : String) :
    Option ModelRecord × List ModelRecord :=
  match getModel models mid with
  | none => (none, models)
  | some m =>
    (getModel (setActiveFirst (deactivateType models m.type) mid) mid,
      setActiveFirst (deactivateType models m.type) mid)

/-- The store after `activate_model` fails partway through: `k` counts the
write steps that completed before the failure (`0`: neither update ran,
`1`: only the `update_many` deactivation ran, `≥ 2`: both writes ran).
The source wraps the two updates in no `try`/`except` and performs no
compensating update on error. -/
def activateModelPartial (models : List ModelRecord) (mid : String) (k : Nat) :
    List ModelRecord :=
  match getModel models mid with
  | none => models
  | some m =>
    if k = 0 then models
    else if k = 1 then deactivateType models m.type
    else setActiveFirst (deactivateType models m.type) mid

/-- The number of active records of a given type. -/
def countActiveOfType (models : List ModelRecord) (t : String) : Nat :=
  models.countP (fun r => r.type == t && r.active)

/-- Whether some record other than `mid` of type `t` is active. -/
def otherActiveOfType (models : List ModelRecord) (mid t : String) : Bool :=
  models.any (fun r => !(r.modelId == mid) && r.type == t && r.active)

theorem countActiveOfType_deactivateType (models : List ModelRecord) (t : String) :
    countActiveOfType (deactivateType models t) t = 0 := by
  rw [countActiveOfType, List.countP_eq_zero]
  intro r hr
  obtain ⟨m, hm, rfl⟩ := List.mem_map.mp hr
  by_cases h : m.type = t ∧ m.active = true
  · simp [h]
  · simp only [if_neg h]
    intro hc
    simp only [Bool.and_eq_true, beq_iff_eq] at hc
    exact h ⟨hc.1, hc.2⟩

theorem countActiveOfType_setActiveFirst_le (models : List ModelRecord)
    (mid t : String) :
    countActiveOfType (setActiveFirst models mid) t ≤ countActiveOfType models t + 1 := by
  induction models with
  | nil => simp [setActiveFirst, countActiveOfType]
  | cons m rest ih =>
    simp only [countActiveOfType] at ih
    by_cases h : m.modelId = mid
    · simp only [setActiveFirst, if_pos h, countActiveOfType, List.countP_cons]
      have hc : (({ m with active := true } : ModelRecord).type == t &&
          ({ m with active := true } : ModelRecord).active) = (m.type == t && true) := rfl
      rw [hc]
      cases hmt : (m.type == t) <;> cases hma : m.active <;> simp [hmt, hma]
    · simp only [setActiveFirst, if_neg h, countActiveOfType, List.countP_cons]
      omega

theorem active_mem_deactivateType (models : List ModelRecord) (t : String)
    (r : ModelRecord) (hr : r ∈ deactivateType models t) (ht : r.type = t) :
    r.active = false := by
  obtain ⟨m, hm, hfm⟩ := List.mem_map.mp hr
  by_cases h : m.type = t ∧ m.active = true
  · rw [if_pos h] at hfm
    rw [← hfm]
  · rw [if_neg h] at hfm
    subst hfm
    cases ha : m.active with
    | false => rfl
    | true => exact absurd ⟨ht, ha⟩ h

theorem mem_setActiveFirst (models : List ModelRecord) (mid : String)
    (r : ModelRecord) (hr : r ∈ setActiveFirst models mid) :
    r ∈ models ∨ ∃ m, m ∈ models ∧ m.modelId = mid ∧ r = { m with active := true } := by
  induction models with
  | nil => cases hr
  | cons m rest ih =>
    by_cases h : m.modelId = mid
    · rw [setActiveFirst, if_pos h] at hr
      cases List.mem_cons.mp hr with
      | inl he => exact Or.inr ⟨m, List.mem_cons_self m rest, h, he⟩
      | inr h2 => exact Or.inl (List.mem_cons_of_mem m h2)
    · rw [setActiveFirst, if_neg h] at hr
      cases List.mem_cons.mp hr with
      | inl he => exact Or.inl (he ▸ List.mem_cons_self m rest)
      | inr h2 =>
        cases ih h2 with
        | inl h3 => exact Or.inl (List.mem_cons_of_mem m h3)
        | inr h3 =>
          obtain ⟨x, hx, hxid, hxr⟩ := h3
          exact Or.inr ⟨x, List.mem_cons_of_mem m hx, hxid, hxr⟩

theorem exists_active_target (models : List ModelRecord) (mid : String)
    (h : ∃ x ∈ models, x.modelId = mid) :
    ∃ r ∈ setActiveFirst models mid, r.modelId = mid ∧ r.active = true := by
  induction models with
  | nil =>
    obtain ⟨x, hx, _⟩ := h
    cases hx
  | cons m rest ih =>
    by_cases hm : m.modelId = mid
    · refine ⟨{ m with active := true }, ?_, hm, rfl⟩
      rw [setActiveFirst, if_pos hm]
      exact List.mem_cons_self _ _
    · obtain ⟨x, hx, hxid⟩ := h
      have hx2 : x ∈ rest := by
        cases List.mem_cons.mp hx with
        | inl he => exact absurd (he ▸ hxid) hm
        | inr h2 => exact h2
      obtain ⟨r, hr, hrid, hract⟩ := ih ⟨x, hx2, hxid⟩
      refine ⟨r, ?_, hrid, hract⟩
      rw [setActiveFirst, if_neg hm]
      exact List.mem_cons_of_mem m hr

theorem exists_id_deactivateType (models : List ModelRecord) (t mid : String)
    (h : ∃ x ∈ models, x.modelId = mid) :
    ∃ y ∈ deactivateType models t, y.modelId = mid := by
  obtain ⟨x, hx, hxid⟩ := h
  refine ⟨if x.type = t ∧ x.active = true then { x with active := false } else x,
    List.mem_map_of_mem _ hx, ?_⟩
  split <;> exact hxid

/-- C4 counterexample: `activate_model` has no compensating update.  On a
store where `m1` (content_based) is active, activating the existing record
`m2` but failing before the deactivation write completes (`k = 0`, e.g.
`update_many` raising) leaves `m1` — another record of the same type —
still active. -/
theorem activate_model_counterexample :
    getModel [⟨"m1", "content_based", true⟩, ⟨"m2", "content_based", false⟩] "m2" =
      some ⟨"m2", "content_based", false⟩ ∧
    activateModelPartial
      [⟨"m1", "content_based", true⟩, ⟨"m2", "content_based", false⟩] "m2" 0 =
      [⟨"m1", "content_based", true⟩, ⟨"m2", "content_based", false⟩] ∧
    otherActiveOfType
      (activateModelPartial
        [⟨"m1", "content_based", true⟩, ⟨"m2", "content_based", false⟩] "m2" 0)
      "m2" "content_based" = true :=
  ⟨rfl, rfl, rfl⟩

/-- C4 (amended): when `activate_model` is called on an existing model and
*completes*, at most one record of the model's type is active, every
active record of that type carries the target id (every other previously
active record of the type has been deactivated), and an activated record
with the target id exists.  Under a partway failure no compensation runs
(see the counterexample), so previously active records may remain
active. -/
theorem activate_model_amended (models : List ModelRecord) (mid : String)
    (m : ModelRecord) (h : getModel models mid = some m) :
    countActiveOfType (activateModel models mid).2 m.type ≤ 1 ∧
    (∀ r ∈ (activateModel models mid).2, r.type = m.type → r.active = true →
      r.modelId = mid) ∧
    ∃ r ∈ (activateModel models mid).2, r.modelId = mid ∧ r.active = true := by
  have hm : m ∈ models := List.mem_of_find?_eq_some h
  have hmid : m.modelId = mid := by simpa using List.find?_some h
  have hresult : (activateModel models mid).2 =
      setActiveFirst (deactivateType models m.type) mid := by
    simp [activateModel, h]
  refine ⟨?_, ?_, ?_⟩
  · rw [hresult]
    calc countActiveOfType (setActiveFirst (deactivateType models m.type) mid) m.type
        ≤ countActiveOfType (deactivateType models m.type) m.type + 1 :=
          countActiveOfType_setActiveFirst_le _ _ _
      _ = 1 := by rw [countActiveOfType_deactivateType]
  · intro r hr htype hact
    rw [hresult] at hr
    cases mem_setActiveFirst _ _ _ hr with
    | inl h2 => exact absurd hact (by simp [active_mem_deactivateType _ _ _ h2 htype])
    | inr h2 =>
      obtain ⟨x, _, hxid, hxr⟩ := h2
      rw [hxr]
      exact hxid
  · rw [hresult]
    exact exists_active_target _ _
      (exists_id_deactivateType models m.type mid ⟨m, hm, hmid⟩)

/-- Witness for C4's amended theorem on a concrete two-record store. -/
theorem activate_model_amended_witness :
    getModel [⟨"m1", "content_based", true⟩, ⟨"m2", "content_based", false⟩] "m2" =
      some ⟨"m2", "content_based", false⟩ ∧
    countActiveOfType
      (activateModel
        [⟨"m1", "content_based", true⟩, ⟨"m2", "content_based", false⟩] "m2").2
      "content_based" ≤ 1 :=
  ⟨rfl, (activate_model_amended
    [⟨"m1", "content_based", true⟩, ⟨"m2", "content_based", false⟩] "m2"
    ⟨"m2", "content_based", false⟩ rfl).1⟩

/-- C10: `activate_model` on a model id with no stored record returns
`None` and leaves the model store unchanged. -/
theorem activate_model_missing (models : List ModelRecord) (mid : String)
    (h : getModel models mid = none) :
    activateModel models mid = (none, models) := by
  simp [activateModel, h]

/-- Witness for C10 on a concrete store and an unknown id. -/
theorem activate_model_missing_witness :
    getModel [⟨"m1", "content_based", true⟩] "zz" = none ∧
    activateModel [⟨"m1", "content_based", true⟩] "zz" =
      (none, [⟨"m1", "content_based", true⟩]) :=
  ⟨rfl, activate_model_missing [⟨"m1", "content_based", true⟩] "zz" rfl⟩

/-! ### Training jobs: `process_model_training` and `_train_hybrid_model`

A training-job document carries `job_id`, `model_type`, `status`,
`message`, `progress`, and optional `error` and `model_id`
(`created_at`/`completed_at` timestamps play no role in any claim).
`process_model_training` finds the job, marks it `IN_PROGRESS`,
dispatches on the model type to one of the three trainers, and records
`COMPLETE` (with `progress = 100` and the produced model id) or, when the
trainer raises, `FAILED` (with the error text) — the `except Exception`
handler swallows the exception, so the embedded function is total and
returns the updated stores instead of propagating an error.  A trainer is
embedded as a function from the job and the current model store to the
list of `(progress, message)` updates it reports, the model store it
leaves behind, and its outcome (`ok model_id` or the text of the raised
exception). -/

structure TrainingJob where
  jobId : String
  modelType : String
  status : String
  message : String
  progress : ℚ
  error : Option String
  modelId : Option String
deriving DecidableEq

/-- `find_one({"job_id": job_id})` on the `training_jobs` collection. -/
def findJob (jobs : List TrainingJob) (jid : String) : Option TrainingJob :=
  jobs.find? (fun x => x.jobId == jid)

/-- `update_one({"job_id": jid}, {"$set": ...})`: patch the first match. -/
def updateJobFirst (jobs : List TrainingJob) (jid : String)
    (f : TrainingJob → TrainingJob) : List TrainingJob :=
  match jobs with
  | [] => []
  | j :: rest =>
    if j.jobId = jid then f j :: rest else j :: updateJobFirst rest jid f

/-- The `update_job_status` fields set before dispatching to a trainer. -/
def inProgressPatch (j : TrainingJob) : TrainingJob :=
  { j with status := "IN_PROGRESS", message := "Starting model training", progress := 5 }

/-- The `update_job_status` fields set on trainer success. -/
def completePatch (mid : String) (j : TrainingJob) : TrainingJob :=
  { j with
    status := "COMPLETE",
    message := "Model training completed successfully",
    progress := 100,
    modelId := some mid }

/-- The `update_job_status` fields set in the `except` handler. -/
def failedPatch (e : String) (j : TrainingJob) : TrainingJob :=
  { j with status := "FAILED", error := some e, message := "Training failed: " ++ e }

/-- A progress/message `update_job_status` issued by a trainer. -/
def progressPatch (pu : ℚ × String) (j : TrainingJob) : TrainingJob :=
  { j with progress := pu.1, message := pu.2 }

/-- Apply a trainer's sequence of progress updates to the job store. -/
def applyProgressUpdates (jobs : List TrainingJob) (jid : String)
    (pus : List (ℚ × String)) : List TrainingJob :=
  pus.foldl (fun js pu => updateJobFirst js jid (progressPatch pu)) jobs

/-- Embedding of `process_model_training` over an abstract trainer. -/
def processModelTraining (jobs : List TrainingJob) (models : List ModelRecord)
    (jid : String)
    (train : TrainingJob → List ModelRecord →
      List (ℚ × String) × List ModelRecord × Except String String) :
    List TrainingJob × List ModelRecord :=
  match findJob jobs jid with
  | none => (jobs, models)
  | some job =>
    match (train job models).2.2 with
    | Except.ok mid =>
      (updateJobFirst (applyProgressUpdates (updateJobFirst jobs jid inProgressPatch)
        jid (train job models).1) jid (completePatch mid), (train job models).2.1)
    | Except.error e =>
      (updateJobFirst (applyProgressUpdates (updateJobFirst jobs jid inProgressPatch)
        jid (train job models).1) jid (failedPatch e), (train job models).2.1)

theorem findJob_updateJobFirst (jobs : List TrainingJob) (jid : String)
    (f : TrainingJob → TrainingJob) (hf : ∀ x, (f x).jobId = x.jobId)
    (j : TrainingJob) (h : findJob jobs jid = some j) :
    findJob (updateJobFirst jobs jid f) jid = some (f j) := by
  simp only [findJob] at h ⊢
  induction jobs with
  | nil => cases h
  | cons a rest ih =>
    by_cases ha : a.jobId = jid
    · rw [updateJobFirst, if_pos ha]
      rw [List.find?_cons_of_pos _ (by simpa using ha)] at h
      cases h
      rw [List.find?_cons_of_pos _ (by simpa [hf] using ha)]
    · rw [updateJobFirst, if_neg ha]
      rw [List.find?_cons_of_neg _ (by simpa using ha)] at h
      rw [List.find?_cons_of_neg _ (by simpa using ha)]
      exact ih h

theorem findJob_applyProgressUpdates (jid : String) (pus : List (ℚ × String)) :
    ∀ (jobs : List TrainingJob) (j : TrainingJob), findJob jobs jid = some j →
      ∃ j2, findJob (applyProgressUpdates jobs jid pus) jid = some j2 := by
  induction pus with
  | nil => exact fun jobs j h => ⟨j, h⟩
  | cons pu pus ih =>
    intro jobs j h
    exact ih _ _ (findJob_updateJobFirst jobs jid (progressPatch pu) (fun x => rfl) j h)

theorem processModelTraining_error (jobs : List TrainingJob)
    (models : List ModelRecord) (jid : String)
    (train : TrainingJob → List ModelRecord →
      List (ℚ × String) × List ModelRecord × Except String String)
    (job : TrainingJob) (e : String)
    (h : findJob jobs jid = some job)
    (he : (train job models).2.2 = Except.error e) :
    (processModelTraining jobs models jid train).2 = (train job models).2.1 ∧
    ∃ j, findJob (processModelTraining jobs models jid train).1 jid = some j ∧
      j.status = "FAILED" ∧ j.error = some e := by
  have h1 := findJob_updateJobFirst jobs jid inProgressPatch (fun x => rfl) job h
  obtain ⟨j2, hj2⟩ := findJob_applyProgressUpdates jid (train job models).1 _ _ h1
  have h3 := findJob_updateJobFirst _ jid (failedPatch e) (fun x => rfl) j2 hj2
  constructor
  · simp only [processModelTraining, h, he]
  · refine ⟨failedPatch e j2, ?_, rfl, rfl⟩
    simp only [processModelTraining, h, he]
    exact h3

theorem processModelTraining_ok (jobs : List TrainingJob)
    (models : List ModelRecord) (jid : String)
    (train : TrainingJob → List ModelRecord →
      List (ℚ × String) × List ModelRecord × Except String String)
    (job : TrainingJob) (mid : String)
    (h : findJob jobs jid = some job)
    (hok : (train job models).2.2 = Except.ok mid) :
    (processModelTraining jobs models jid train).2 = (train job models).2.1 ∧
    ∃ j, findJob (processModelTraining jobs models jid train).1 jid = some j ∧
      j.status = "COMPLETE" ∧ j.progress = 100 ∧ j.modelId = some mid := by
  have h1 := findJob_updateJobFirst jobs jid inProgressPatch (fun x => rfl) job h
  obtain ⟨j2, hj2⟩ := findJob_applyProgressUpdates jid (train job models).1 _ _ h1
  have h3 := findJob_updateJobFirst _ jid (completePatch mid) (fun x => rfl) j2 hj2
  constructor
  · simp only [processModelTraining, h, hok]
  · refine ⟨completePatch mid j2, ?_, rfl, rfl, rfl⟩
    simp only [processModelTraining, h, hok]
    exact h3

/-- C2: for a job present in the store, `process_model_training` records
`FAILED` with the raised error's text when the trainer raises (the
exception is swallowed — the embedded function is total, returning stores
rather than an error), and records `COMPLETE` with `progress = 100` and
the non-null produced model id when the trainer succeeds. -/
theorem process_model_training_spec (jobs : List TrainingJob)
    (models : List ModelRecord) (jid : String)
    (train : TrainingJob → List ModelRecord →
      List (ℚ × String) × List ModelRecord × Except String String)
    (job : TrainingJob) (h : findJob jobs jid = some job) :
    (∀ e, (train job models).2.2 = Except.error e →
      ∃ j, findJob (processModelTraining jobs models jid train).1 jid = some j ∧
        j.status = "FAILED" ∧ j.error = some e) ∧
    (∀ mid, (train job models).2.2 = Except.ok mid →
      ∃ j, findJob (processModelTraining jobs models jid train).1 jid = some j ∧
        j.status = "COMPLETE" ∧ j.progress = 100 ∧ j.modelId = some mid) :=
  ⟨fun e he => (processModelTraining_error jobs models jid train job e h he).2,
   fun mid hok => (processModelTraining_ok jobs models jid train job mid h hok).2⟩

/-- A concrete pending job used by the training witnesses. -/
def pendingJob (jid t : String) : TrainingJob :=
  ⟨jid, t, "PENDING", "queued", 0, none, none⟩

/-- Witness for C2 on a one-job store with a failing and a succeeding
trainer. -/
theorem process_model_training_spec_witness :
    findJob [pendingJob "j1" "content_based"] "j1" = some (pendingJob "j1" "content_based") ∧
    (∃ j, findJob (processModelTraining [pendingJob "j1" "content_based"] [] "j1"
        (fun _ _ => ([], [], Except.error "boom"))).1 "j1" = some j ∧
      j.status = "FAILED" ∧ j.error = some "boom") ∧
    (∃ j, findJob (processModelTraining [pendingJob "j1" "content_based"] [] "j1"
        (fun _ _ => ([], [], Except.ok "model-1"))).1 "j1" = some j ∧
      j.status = "COMPLETE" ∧ j.progress = 100 ∧ j.modelId = some "model-1") := by
  have h : findJob [pendingJob "j1" "content_based"] "j1" =
      some (pendingJob "j1" "content_based") := rfl
  exact ⟨h,
    (process_model_training_spec [pendingJob "j1" "content_based"] [] "j1"
      (fun _ _ => ([], [], Except.error "boom")) _ h).1 "boom" rfl,
    (process_model_training_spec [pendingJob "j1" "content_based"] [] "j1"
      (fun _ _ => ([], [], Except.ok "model-1")) _ h).2 "model-1" rfl⟩

/-- The tail of `_train_hybrid_model`'s success path: insert the new
hybrid record (inactive), then, if no active hybrid model exists, activate
it via `activate_model`. -/
def hybridInsertAndMaybeActivate (models : List ModelRecord) (newId : String) :
    List ModelRecord :=
  match getActiveModel (models ++ [⟨newId, "hybrid", false⟩]) "hybrid" with
  | none => (activateModel (models ++ [⟨newId, "hybrid", false⟩]) newId).2
  | some _ => models ++ [⟨newId, "hybrid", false⟩]

/-- Embedding of `_train_hybrid_model` as a trainer: reports progress 10,
requires an active content-based and an active collaborative-filtering
model (raising `ValueError` — an error outcome — otherwise, before any
insertion), then reports progress 90, inserts the new hybrid `ModelInfo`
and possibly activates it. -/
def hybridTrainer (newId : String) (_job : TrainingJob) (models : List ModelRecord) :
    List (ℚ × String) × List ModelRecord × Except String String :=
  match getActiveModel models "content_based" with
  | none => ([(10, "Finding underlying models")], models,
      Except.error "No active content-based model found. Please train one first.")
  | some _ =>
    match getActiveModel models "collaborative_filtering" with
    | none => ([(10, "Finding underlying models")], models,
        Except.error "No active collaborative filtering model found. Please train one first.")
    | some _ =>
      ([(10, "Finding underlying models"), (90, "Storing hybrid model")],
        hybridInsertAndMaybeActivate models newId, Except.ok newId)

/-- C8: hybrid training without an active content-based or without an
active collaborative-filtering model fails with a precondition error —
the processed job ends `FAILED` — and inserts no `ModelRecord`: the model
store is unchanged. -/
theorem hybrid_training_precondition (jobs : List TrainingJob)
    (models : List ModelRecord) (jid newId : String) (job : TrainingJob)
    (h : findJob jobs jid = some job)
    (hpre : getActiveModel models "content_based" = none ∨
      getActiveModel models "collaborative_filtering" = none) :
    (processModelTraining jobs models jid (hybridTrainer newId)).2 = models ∧
    ∃ j e, findJob (processModelTraining jobs models jid (hybridTrainer newId)).1 jid =
        some j ∧ j.status = "FAILED" ∧ j.error = some e := by
  have herr : ∃ e, (hybridTrainer newId job models).2.2 = Except.error e ∧
      (hybridTrainer newId job models).2.1 = models := by
    cases hc : getActiveModel models "content_based" with
    | none =>
      exact ⟨"No active content-based model found. Please train one first.",
        by simp [hybridTrainer, hc], by simp [hybridTrainer, hc]⟩
    | some mc =>
      cases hf : getActiveModel models "collaborative_filtering" with
      | none =>
        exact ⟨"No active collaborative filtering model found. Please train one first.",
          by simp [hybridTrainer, hc, hf], by simp [hybridTrainer, hc, hf]⟩
      | some mf =>
        rcases hpre with hp | hp
        · rw [hc] at hp; cases hp
        · rw [hf] at hp; cases hp
  obtain ⟨e, he, hm⟩ := herr
  have h2 := processModelTraining_error jobs models jid (hybridTrainer newId) job e h he
  obtain ⟨j, hj, hs, he2⟩ := h2.2
  exact ⟨h2.1.trans hm, j, e, hj, hs, he2⟩

/-- Witness for C8: a pending hybrid job processed against an empty model
store (no active models at all) ends `FAILED` with the store unchanged. -/
theorem hybrid_training_precondition_witness :
    findJob [pendingJob "j2" "hybrid"] "j2" = some (pendingJob "j2" "hybrid") ∧
    getActiveModel ([] : List ModelRecord) "content_based" = none ∧
    (processModelTraining [pendingJob "j2" "hybrid"] [] "j2" (hybridTrainer "m-h")).2 = [] ∧
    (∃ j e, findJob (processModelTraining [pendingJob "j2" "hybrid"] [] "j2"
        (hybridTrainer "m-h")).1 "j2" = some j ∧
      j.status = "FAILED" ∧ j.error = some e) := by
  have h : findJob [pendingJob "j2" "hybrid"] "j2" = some (pendingJob "j2" "hybrid") := rfl
  have hp := hybrid_training_precondition [pendingJob "j2" "hybrid"] [] "j2" "m-h"
    (pendingJob "j2" "hybrid") h (Or.inl rfl)
  exact ⟨h, rfl, hp.1, hp.2⟩

/-! ### `create_interaction` (`interaction_service.py`)

The service validates that the movie exists (raising `MovieNotFoundError`
otherwise), inserts the interaction document (a `PyMongoError` here is
re-raised), then invalidates the user's recommendation cache key
`"rec:user:" + user_id` — where `RedisError` and any other exception are
caught and logged, never failing the operation — and returns the created
interaction. -/

inductive CreateErr where
  | movieNotFound
  | dbError
deriving DecidableEq

def USER_REC_CACHE_PREFIX : String := "rec:user:"

/-- The cache key invalidated for a user. -/
def userRecCacheKey (uid : String) : String := USER_REC_CACHE_PREFIX ++ uid

/-- Embedding of `_invalidate_user_rec_cache`: delete the user's key; on a
cache error (`cacheOk = false`) the exception is caught and the cache is
left as is. -/
def invalidateUserRecCache (cacheOk : Bool) (keys : List String) (uid : String) :
    List String :=
  if cacheOk then keys.filter (fun k => !(k == userRecCacheKey uid)) else keys

/-- The interaction store and the set of present cache keys. -/
structure CIState where
  interactions : List Interaction
  cacheKeys : List String
deriving DecidableEq

/-- Embedding of `create_interaction`: movie-existence check, insert,
cache invalidation (best-effort), and the created document returned. -/
def createInteraction (movieExists dbOk cacheOk : Bool) (st : CIState)
    (uid movieId ty : String) (value : ℚ) (ts : Int) :
    CIState × Except CreateErr Interaction :=
  if movieExists then
    if dbOk then
      (⟨st.interactions ++ [⟨uid, movieId, ty, value, ts⟩],
        invalidateUserRecCache cacheOk st.cacheKeys uid⟩,
        Except.ok ⟨uid, movieId, ty, value, ts⟩)
    else (st, Except.error CreateErr.dbError)
  else (st, Except.error CreateErr.movieNotFound)

/-- C9: whenever `create_interaction` successfully records an interaction,
the user's recommendation cache key has been deleted (when the cache
delete succeeds), and a cache failure during the deletion does not make
`create_interaction` fail: the interaction is still recorded and
returned. -/
theorem create_interaction_invalidates (movieExists dbOk cacheOk : Bool)
    (st : CIState) (uid movieId ty : String) (value : ℚ) (ts : Int)
    (hm : movieExists = true) (hd : dbOk = true) :
    (createInteraction movieExists dbOk cacheOk st uid movieId ty value ts).2 =
      Except.ok ⟨uid, movieId, ty, value, ts⟩ ∧
    (createInteraction movieExists dbOk cacheOk st uid movieId ty value ts).1.interactions =
      st.interactions ++ [⟨uid, movieId, ty, value, ts⟩] ∧
    (cacheOk = true →
      userRecCacheKey uid ∉
        (createInteraction movieExists dbOk cacheOk st uid movieId ty value ts).1.cacheKeys) := by
  subst hm; subst hd
  refine ⟨rfl, rfl, ?_⟩
  intro hc hmem
  subst hc
  simp only [createInteraction, if_true, invalidateUserRecCache] at hmem
  have h2 := (List.mem_filter.mp hmem).2
  simp at h2

/-- Witness for C9: a successful creation with a working cache deletes
`rec:user:u1`; the same creation with a failing cache still succeeds. -/
theorem create_interaction_invalidates_witness :
    (createInteraction true true true ⟨[], ["rec:user:u1"]⟩ "u1" "m1" "rate" 5 7).2 =
      Except.ok ⟨"u1", "m1", "rate", 5, 7⟩ ∧
    userRecCacheKey "u1" ∉
      (createInteraction true true true ⟨[], ["rec:user:u1"]⟩ "u1" "m1" "rate" 5 7).1.cacheKeys ∧
    (createInteraction true true false ⟨[], ["rec:user:u1"]⟩ "u1" "m1" "rate" 5 7).2 =
      Except.ok ⟨"u1", "m1", "rate", 5, 7⟩ := by
  have h1 := create_interaction_invalidates true true true ⟨[], ["rec:user:u1"]⟩
    "u1" "m1" "rate" 5 7 rfl rfl
  have h2 := create_interaction_invalidates true true false ⟨[], ["rec:user:u1"]⟩
    "u1" "m1" "rate" 5 7 rfl rfl
  exact ⟨h1.1, h1.2.2 rfl, h2.1⟩

end MovieLens
